import Mathlib

/-!
Verification of the harp action-logging pipeline.

This file shallowly embeds the parts of the harp repository that the
specification's claims are about:

* the record codec (`src/action.rs`, the two `TryFrom` impls) together
  with byte-level models of the external crates it calls into
  (bufferfish reads/writes, the `ipnetwork` textual forms, the `time`
  crate's `Display` and `format_description` parsing, and an atomic
  subset of `serde_json`);
* the server connection handler and batching flusher
  (`src/bin/src/server.rs`: `handle_connection`, `process_queue`);
* the client agent (`src/src/lib.rs`: `Harp::run`, `Harp::create_addr`,
  `backoff_generator`).

Byte strings are modelled as `List Nat` with every element `< 256`; the
textual fields exercised here are ASCII, for which the source's UTF-8
encoding is the identity on bytes.
-/

namespace Harp

/-- A byte sequence, as produced and consumed by the bufferfish codec.
Each element is intended to be `< 256`. -/
abbrev Bufferfish : Type := List Nat

/-- ASCII decimal digit test (bytes 48..57). -/
def isDigit (b : Nat) : Bool := 48 ≤ b && b ≤ 57

/-- Decimal rendering of a natural number, most significant digit first,
with no leading zeros (fuel-structured so that it reduces definitionally). -/
def natToDecAux : Nat → Nat → List Nat
  | 0, _ => []
  | fuel + 1, n => if n < 10 then [48 + n] else natToDecAux fuel (n / 10) ++ [48 + n % 10]

/-- Decimal ASCII rendering of a natural number (`0` renders as `"0"`). -/
def natToDec (n : Nat) : List Nat := natToDecAux (n + 1) n

/-- Left-pad a digit string with ASCII zeros up to the given width. This is
Rust's `{:0width$}` formatting for the numbers appearing here. -/
def padNum (width n : Nat) : List Nat :=
  List.replicate (width - (natToDec n).length) 48 ++ natToDec n

/-- Parse exactly `n` ASCII digits from the front of the input, returning the
value and the remaining bytes.  This models the `time` crate's parsing of a
zero-padded numeric component, which demands exactly `width` digits. -/
def parseNDigits : Nat → Nat → List Nat → Option (Nat × List Nat)
  | 0, acc, s => some (acc, s)
  | _ + 1, _, [] => none
  | n + 1, acc, b :: s =>
    if isDigit b then parseNDigits n (acc * 10 + (b - 48)) s else none

/-- Expect a single literal byte at the front of the input. -/
def expectByte (b : Nat) : List Nat → Option (List Nat)
  | [] => none
  | c :: s => if c = b then some s else none

/-- Big-endian 2-byte encoding of a 16-bit length, as written by the
bufferfish length prefixes and the length-delimited framer. -/
def u16be (n : Nat) : List Nat := [n / 256 % 256, n % 256]

/-- Big-endian 4-byte encoding of a 32-bit integer (`Bufferfish::write_u32`). -/
def u32be (n : Nat) : List Nat :=
  [n / 16777216 % 256, n / 65536 % 256, n / 256 % 256, n % 256]

/-- Read a big-endian u16 from the front of the buffer
(`Bufferfish::read_u16`); fails on a short buffer. -/
def readU16 : List Nat → Option (Nat × List Nat)
  | b0 :: b1 :: rest => some (b0 * 256 + b1, rest)
  | _ => none

/-- Read a big-endian u32 from the front of the buffer
(`Bufferfish::read_u32`); fails on a short buffer. -/
def readU32 : List Nat → Option (Nat × List Nat)
  | b0 :: b1 :: b2 :: b3 :: rest =>
    some (b0 * 16777216 + b1 * 65536 + b2 * 256 + b3, rest)
  | _ => none

/-- Read a length-prefixed string from the front of the buffer
(`Bufferfish::read_string`): a big-endian u16 length followed by that many
bytes; fails on a short buffer. -/
def readString (s : List Nat) : Option (List Nat × List Nat) :=
  match readU16 s with
  | none => none
  | some (len, rest) =>
    if len ≤ rest.length then some (rest.take len, rest.drop len) else none

/-- Append a length-prefixed string (`Bufferfish::write_string`): fails when
the byte length does not fit in the u16 length prefix. -/
def writeString (s : List Nat) : Option (List Nat) :=
  if s.length > 65535 then none else some (u16be s.length ++ s)

/-! ### Model of `ipnetwork::IpNetwork` (IPv4 arm)

The `addr` field of an `Action` is an `ipnetwork::IpNetwork`.  The claims are
all settled on IPv4 inputs, so the model covers the `V4` arm of that external
crate; its `V6` arm (and `std`'s IPv6 textual grammar) is out of the model's
scope. -/

/-- An IPv4 network: four octets and a prefix length, mirroring
`ipnetwork::Ipv4Network`. -/
structure Ipv4Network where
  a : Nat
  b : Nat
  c : Nat
  d : Nat
  prefixLen : Nat
deriving DecidableEq, Repr

/-- Display of `ipnetwork::Ipv4Network`: the dotted-decimal address, a slash,
and the prefix length (always printed, even for `/32`). -/
def ipNetworkDisplay (n : Ipv4Network) : List Nat :=
  natToDec n.a ++ [46] ++ natToDec n.b ++ [46] ++ natToDec n.c ++ [46] ++ natToDec n.d
    ++ [47] ++ natToDec n.prefixLen

/-- Parse one decimal octet as `std`'s IPv4 parser does: one to three digits,
no leading zero (other than the single digit `0`), value at most 255. -/
def parseOctet (s : List Nat) : Option (Nat × List Nat) :=
  match s with
  | b0 :: rest =>
    if isDigit b0 then
      if b0 = 48 then
        -- a leading zero must stand alone
        some (0, rest)
      else
        match rest with
        | b1 :: rest1 =>
          if isDigit b1 then
            match rest1 with
            | b2 :: rest2 =>
              if isDigit b2 then
                let v := (b0 - 48) * 100 + (b1 - 48) * 10 + (b2 - 48)
                if v ≤ 255 then some (v, rest2) else none
              else some ((b0 - 48) * 10 + (b1 - 48), rest1)
            | [] => some ((b0 - 48) * 10 + (b1 - 48), [])
          else some (b0 - 48, rest)
        | [] => some (b0 - 48, [])
    else none
  | [] => none

/-- Parse a full dotted-decimal IPv4 address (`std::net::Ipv4Addr::from_str`
on the byte level), consuming the whole input. -/
def ipv4AddrParse (s : List Nat) : Option (Nat × Nat × Nat × Nat) := do
  let (a, s) ← parseOctet s
  let s ← expectByte 46 s
  let (b, s) ← parseOctet s
  let s ← expectByte 46 s
  let (c, s) ← parseOctet s
  let s ← expectByte 46 s
  let (d, s) ← parseOctet s
  if s.isEmpty then some (a, b, c, d) else none

/-- Parse a decimal `u8` as Rust's `u8::from_str` accepts it here: one or more
digits (leading zeros allowed), value at most 255. -/
def parseU8All (s : List Nat) : Option Nat :=
  if s.isEmpty then none
  else if s.all isDigit then
    let v := s.foldl (fun acc b => acc * 10 + (b - 48)) 0
    if v ≤ 255 then some v else none
  else none

/-- Parse an `ipnetwork::IpNetwork` (V4 arm): an IPv4 address optionally
followed by a slash and a prefix length; with no slash the prefix defaults to
the full 32 bits.  The prefix must be at most 32. -/
def ipNetworkParse (s : List Nat) : Option Ipv4Network :=
  match s.splitOn 47 with
  | [addrPart] =>
    match ipv4AddrParse addrPart with
    | some (a, b, c, d) => some ⟨a, b, c, d, 32⟩
    | none => none
  | [addrPart, prefixPart] =>
    match ipv4AddrParse addrPart, parseU8All prefixPart with
    | some (a, b, c, d), some p => if p ≤ 32 then some ⟨a, b, c, d, p⟩ else none
    | _, _ => none
  | _ => none

/-! ### Model of the `time` crate's `OffsetDateTime`

`encode` renders `created` with `OffsetDateTime`'s `Display`
(`"{date} {time} {offset}"`), and `decode` parses it back with the
`format_description!` pattern from `src/action.rs` line 88.  The model
reproduces both sides of that external crate:

* `Display` for `Time` prints the hour *unpadded* (`0:00:00.0` at midnight)
  and trims trailing zeros from the subsecond part (printing at least one
  digit);
* parsing a zero-padded numeric component (`[hour]`, `[minute]`, ...)
  demands exactly its width in digits, while `[subsecond]` accepts one to
  nine digits;
* parsing validates the calendar date and the component ranges and requires
  the whole input to be consumed.

The model covers years 0..=9999 and non-negative-year dates, which includes
every timestamp the pipeline constructs. -/

/-- A UTC offset, mirroring `time::UtcOffset` (sign and three components). -/
structure UtcOffset where
  neg : Bool
  hours : Nat
  minutes : Nat
  seconds : Nat
deriving DecidableEq, Repr

/-- A date-time with offset, mirroring `time::OffsetDateTime`. -/
structure OffsetDateTime where
  year : Nat
  month : Nat
  day : Nat
  hour : Nat
  minute : Nat
  second : Nat
  nanosecond : Nat
  offset : UtcOffset
deriving DecidableEq, Repr

/-- Trailing-zero trimming of the subsecond part, as in `Display for
time::Time`: returns the printed value and its printed width. -/
def subsecValueWidth (n : Nat) : Nat × Nat :=
  if n % 10 ≠ 0 then (n, 9)
  else if n / 10 % 10 ≠ 0 then (n / 10, 8)
  else if n / 100 % 10 ≠ 0 then (n / 100, 7)
  else if n / 1000 % 10 ≠ 0 then (n / 1000, 6)
  else if n / 10000 % 10 ≠ 0 then (n / 10000, 5)
  else if n / 100000 % 10 ≠ 0 then (n / 100000, 4)
  else if n / 1000000 % 10 ≠ 0 then (n / 1000000, 3)
  else if n / 10000000 % 10 ≠ 0 then (n / 10000000, 2)
  else (n / 100000000, 1)

/-- Display of `time::Date`: zero-padded `year-month-day`. -/
def dateDisplay (t : OffsetDateTime) : List Nat :=
  padNum 4 t.year ++ [45] ++ padNum 2 t.month ++ [45] ++ padNum 2 t.day

/-- Display of `time::Time`: the hour is printed without padding, the minute
and second are zero-padded to two digits, and the subsecond part is printed
with trailing zeros trimmed (at least one digit). -/
def timeDisplay (t : OffsetDateTime) : List Nat :=
  natToDec t.hour ++ [58] ++ padNum 2 t.minute ++ [58] ++ padNum 2 t.second
    ++ [46] ++ padNum (subsecValueWidth t.nanosecond).2 (subsecValueWidth t.nanosecond).1

/-- Display of `time::UtcOffset`: an explicit sign and three zero-padded
components. -/
def offsetDisplay (t : OffsetDateTime) : List Nat :=
  [if t.offset.neg then 45 else 43] ++ padNum 2 t.offset.hours ++ [58]
    ++ padNum 2 t.offset.minutes ++ [58] ++ padNum 2 t.offset.seconds

/-- Display of `time::OffsetDateTime`: date, time and offset joined by single
spaces.  This is the text `encode` writes for `created`. -/
def odtDisplay (t : OffsetDateTime) : List Nat :=
  dateDisplay t ++ [32] ++ timeDisplay t ++ [32] ++ offsetDisplay t

/-- Whether a year is a leap year (proleptic Gregorian calendar). -/
def isLeapYear (y : Nat) : Bool :=
  y % 4 = 0 && (y % 100 ≠ 0 || y % 400 = 0)

/-- Days in a month, for validating a parsed calendar date. -/
def daysInMonth (y m : Nat) : Nat :=
  if m = 2 then (if isLeapYear y then 29 else 28)
  else if m = 4 ∨ m = 6 ∨ m = 9 ∨ m = 11 then 30
  else 31

/-- Maximal munch of further subsecond digits: accumulates while the head is
a digit and fewer than nine digits have been taken, returning the
accumulated value, the digit count, and the remaining bytes. -/
def parseSubsecAux : List Nat → Nat → Nat → Nat × Nat × List Nat
  | [], acc, cnt => (acc, cnt, [])
  | b :: rest, acc, cnt =>
    if isDigit b ∧ cnt < 9 then parseSubsecAux rest (acc * 10 + (b - 48)) (cnt + 1)
    else (acc, cnt, b :: rest)

/-- Parse the subsecond component: one to nine digits (maximal munch),
scaled to nanoseconds. -/
def parseSubsecond (s : List Nat) : Option (Nat × List Nat) :=
  match s with
  | b0 :: rest0 =>
    if isDigit b0 then
      let r := parseSubsecAux rest0 (b0 - 48) 1
      some (r.1 * 10 ^ (9 - r.2.1), r.2.2)
    else none
  | [] => none

/-- Parse an optional sign byte, returning whether the component is negative. -/
def parseSign (s : List Nat) : Bool × List Nat :=
  match s with
  | 43 :: rest => (false, rest)
  | 45 :: rest => (true, rest)
  | _ => (false, s)

/-- Parse the `[year]-[month]-[day]` part of the format description. -/
def parseDatePart (s : List Nat) : Option ((Nat × Nat × Nat) × List Nat) :=
  match parseNDigits 4 0 s with
  | none => none
  | some (y, s) =>
  match expectByte 45 s with
  | none => none
  | some s =>
  match parseNDigits 2 0 s with
  | none => none
  | some (mo, s) =>
  match expectByte 45 s with
  | none => none
  | some s =>
  match parseNDigits 2 0 s with
  | none => none
  | some (d, s) => some ((y, mo, d), s)

/-- Parse the `[hour]:[minute]:[second].[subsecond]` part of the format
description. -/
def parseTimePart (s : List Nat) : Option ((Nat × Nat × Nat × Nat) × List Nat) :=
  match parseNDigits 2 0 s with
  | none => none
  | some (h, s) =>
  match expectByte 58 s with
  | none => none
  | some s =>
  match parseNDigits 2 0 s with
  | none => none
  | some (mi, s) =>
  match expectByte 58 s with
  | none => none
  | some s =>
  match parseNDigits 2 0 s with
  | none => none
  | some (sec, s) =>
  match expectByte 46 s with
  | none => none
  | some s =>
  match parseSubsecond s with
  | none => none
  | some (nano, s) => some ((h, mi, sec, nano), s)

/-- Parse the `[offset_hour]:[offset_minute]:[offset_second]` part of the
format description (the sign is optional when parsing). -/
def parseOffsetPart (s : List Nat) : Option (UtcOffset × List Nat) :=
  match parseSign s with
  | (offNeg, s) =>
  match parseNDigits 2 0 s with
  | none => none
  | some (oh, s) =>
  match expectByte 58 s with
  | none => none
  | some s =>
  match parseNDigits 2 0 s with
  | none => none
  | some (om, s) =>
  match expectByte 58 s with
  | none => none
  | some (os_) =>
  match parseNDigits 2 0 os_ with
  | none => none
  | some (os, s) => some (⟨offNeg, oh, om, os⟩, s)

/-- Component and calendar validation performed when the `time` crate builds
an `OffsetDateTime` from the parsed components. -/
def odtValid (t : OffsetDateTime) : Bool :=
  1 ≤ t.month && t.month ≤ 12 && 1 ≤ t.day && t.day ≤ daysInMonth t.year t.month
    && t.hour ≤ 23 && t.minute ≤ 59 && t.second ≤ 59
    && t.offset.hours ≤ 23 && t.offset.minutes ≤ 59 && t.offset.seconds ≤ 59

/-- Parse the `created` text with the format description of
`src/action.rs` line 88
(`[year]-[month]-[day] [hour]:[minute]:[second].[subsecond]
[offset_hour]:[offset_minute]:[offset_second]`), with the component and
calendar validation the `time` crate performs, requiring the whole input to
be consumed. -/
def odtParse (s : List Nat) : Option OffsetDateTime :=
  match parseDatePart s with
  | none => none
  | some ((y, mo, d), s) =>
  match expectByte 32 s with
  | none => none
  | some s =>
  match parseTimePart s with
  | none => none
  | some ((h, mi, sec, nano), s) =>
  match expectByte 32 s with
  | none => none
  | some s =>
  match parseOffsetPart s with
  | none => none
  | some (off, s) =>
    let t : OffsetDateTime := ⟨y, mo, d, h, mi, sec, nano, off⟩
    if s.isEmpty && odtValid t then some t else none

/-! ### Model of `serde_json::Value`

The `detail` field is an `Option<serde_json::Value>`.  The model covers the
atomic values (null, booleans, integers, strings without escape sequences);
no claim is settled on a composite or floating-point detail, and every
concrete input below uses `detail = none`, for which the codec writes and
reads the empty string. -/

/-- Atomic subset of `serde_json::Value`. -/
inductive Json where
  | null
  | bool (b : Bool)
  | num (n : Int)
  | str (s : List Nat)
deriving DecidableEq, Repr

/-- Decimal rendering of an integer. -/
def intToDec (i : Int) : List Nat :=
  if i < 0 then 45 :: natToDec i.natAbs else natToDec i.natAbs

/-- Serialization of an atomic JSON value (`serde_json::to_string`). -/
def jsonToString : Json → List Nat
  | .null => [110, 117, 108, 108]
  | .bool true => [116, 114, 117, 101]
  | .bool false => [102, 97, 108, 115, 101]
  | .num i => intToDec i
  | .str s => [34] ++ s ++ [34]

/-- Digit-sequence value. -/
def digitsVal (ds : List Nat) : Nat := ds.foldl (fun a b => a * 10 + (b - 48)) 0

/-- A canonical JSON integer literal: at least one digit, digits only, and no
leading zero unless it is the single digit `0`. -/
def decDigitsCanonical (ds : List Nat) : Bool :=
  !ds.isEmpty && ds.all isDigit && !(1 < ds.length && ds.head? = some 48)

/-- Parse an atomic JSON document (`serde_json::from_str`), requiring the
whole input to be consumed. -/
def jsonParse (s : List Nat) : Option Json :=
  if s = [110, 117, 108, 108] then some .null
  else if s = [116, 114, 117, 101] then some (.bool true)
  else if s = [102, 97, 108, 115, 101] then some (.bool false)
  else
    match s with
    | 34 :: rest =>
      let mid := rest.dropLast
      if rest.getLast? = some 34 && mid.all (fun b => b ≠ 34 && b ≠ 92) then
        some (.str mid)
      else none
    | 45 :: ds => if decDigitsCanonical ds then some (.num (-(digitsVal ds : Int))) else none
    | ds => if decDigitsCanonical ds then some (.num (digitsVal ds)) else none

/-! ### The action record and its codec (`src/action.rs`) -/

/-- Errors of the codec (`ActionError` in `src/action.rs`).  `bufferRead`
stands for `BufferRead(io::Error)`; `parse target` stands for
`Parse { from, to }`, keeping the `to` tag that names the target type (the
`from` payload, the offending text, is elided). -/
inductive ActionError where
  | bufferRead
  | parse (target : String)
deriving DecidableEq, Repr

/-- The action record (`Action` in `src/action.rs`): a u32 entity id, an IP
network, a kind tag (UTF-8 bytes of the `String`), an optional JSON detail
and a creation timestamp. -/
structure Action where
  id : Nat
  addr : Ipv4Network
  kind : List Nat
  detail : Option Json
  created : OffsetDateTime
deriving DecidableEq, Repr

/-- The detail text `encode` writes: the JSON serialization, or the empty
string when the detail is absent. -/
def detailBytes : Option Json → List Nat
  | some d => jsonToString d
  | none => []

/-- `impl TryFrom<Action> for Bufferfish` (`src/action.rs` lines 96-116):
write the id as a big-endian u32, then the display of `addr`, the `kind`,
the serialized `detail` (empty when absent) and the display of `created`,
each as a length-prefixed string.  A string longer than 65535 bytes makes
the write fail.  (In the source, serializing `detail` can also fail inside
`serde_json`, mapped to `Parse`; for the modelled JSON subset serialization
is total.) -/
def encodeAction (a : Action) : Except ActionError (List Nat) :=
  match writeString (ipNetworkDisplay a.addr) with
  | none => .error .bufferRead
  | some s1 =>
  match writeString a.kind with
  | none => .error .bufferRead
  | some s2 =>
  match writeString (detailBytes a.detail) with
  | none => .error .bufferRead
  | some s3 =>
  match writeString (odtDisplay a.created) with
  | none => .error .bufferRead
  | some s4 => .ok (u32be a.id ++ s1 ++ s2 ++ s3 ++ s4)

/-- `impl TryFrom<Bufferfish> for Action` (`src/action.rs` lines 61-94):
read the u32 id and four length-prefixed strings, parsing the address text
as an `IpNetwork`, the non-empty detail text as JSON, and the created text
with the timestamp format description.  Trailing bytes after the four
strings are not inspected.  Short reads yield `bufferRead`; failed field
parses yield `parse` tagged with the target type, as in the source. -/
def decodeAction (bytes : List Nat) : Except ActionError Action :=
  match readU32 bytes with
  | none => .error .bufferRead
  | some (id, r1) =>
  match readString r1 with
  | none => .error .bufferRead
  | some (addrS, r2) =>
  match ipNetworkParse addrS with
  | none => .error (.parse "ipnetwork::IpNetwork")
  | some addr =>
  match readString r2 with
  | none => .error .bufferRead
  | some (kindS, r3) =>
  match readString r3 with
  | none => .error .bufferRead
  | some (detailS, r4) =>
  match (if detailS.isEmpty then some none else (jsonParse detailS).map some) with
  | none => .error (.parse "serde_json::Value")
  | some detail =>
  match readString r4 with
  | none => .error .bufferRead
  | some (createdS, _) =>
  match odtParse createdS with
  | none => .error (.parse "time::OffsetDateTime")
  | some created => .ok ⟨id, addr, kindS, detail, created⟩

/-- The raw wire fields of a frame: the u32 id and the four length-prefixed
strings, together with the bytes remaining after them.  This is the
byte-level read sequence of `decodeAction` before any field text is parsed. -/
def decodeWire (bytes : List Nat) :
    Option (Nat × List Nat × List Nat × List Nat × List Nat × List Nat) :=
  match readU32 bytes with
  | none => none
  | some (id, r1) =>
  match readString r1 with
  | none => none
  | some (addrS, r2) =>
  match readString r2 with
  | none => none
  | some (kindS, r3) =>
  match readString r3 with
  | none => none
  | some (detailS, r4) =>
  match readString r4 with
  | none => none
  | some (createdS, r5) => some (id, addrS, kindS, detailS, createdS, r5)

/-! ### Server: batching flusher (`src/bin/src/server.rs`, `process_queue`) -/

/-- Postgres bind-parameter cap (`POSTGRES_BIND_LIMIT`). -/
def POSTGRES_BIND_LIMIT : Nat := 65535

/-- Per-flush row cap (`LIMIT = POSTGRES_BIND_LIMIT / 5`). -/
def LIMIT : Nat := POSTGRES_BIND_LIMIT / 5

/-- The drain step of `process_queue` (`src/bin/src/server.rs` lines 71-98):
if the queue is empty nothing happens; otherwise `drain(..LIMIT)` removes the
first `LIMIT` records when more than `LIMIT` are queued, else `drain(..)`
removes them all.  Returns the drained records, in the order they are bound
into the single INSERT (one parameter group of 5 per record), and the
records remaining in the queue. -/
def process_queue_drain (queue : List Action) : List Action × List Action :=
  if queue.isEmpty then ([], queue)
  else if queue.length > LIMIT then (queue.take LIMIT, queue.drop LIMIT)
  else (queue, [])

/-! ### Server: connection handler (`src/bin/src/server.rs`, `handle_connection`) -/

/-- The shared queue: its records and its current capacity.  The server
creates it with an initial capacity hint of 100
(`Vec::with_capacity(100)` in `listen`). -/
structure QueueState where
  items : List Action
  cap : Nat
deriving DecidableEq, Repr

/-- The enqueue step of `handle_connection` (`src/bin/src/server.rs` lines
138-155) for one decoded action.  `reserveOk` is the allocator's answer to
`try_reserve(100)`.

* `push_within_capacity` appends without allocating when the length is below
  the capacity;
* otherwise `try_reserve(100)` is attempted; on success it grows the
  capacity (to at least `len + 100`) and control falls out of the `if let`
  without touching the action again;
* on allocation failure the action is re-encoded and the frame is sent back
  to the peer; a re-encode failure propagates out of the handler.

Returns the new queue state and the frame sent back to the peer, if any. -/
def enqueueStep (q : QueueState) (a : Action) (reserveOk : Bool) :
    Except ActionError (QueueState × Option (List Nat)) :=
  if q.items.length < q.cap then .ok ({ items := q.items ++ [a], cap := q.cap }, none)
  else if reserveOk then .ok ({ items := q.items, cap := q.items.length + 100 }, none)
  else
    match encodeAction a with
    | .error e => .error e
    | .ok bf => .ok ({ items := q.items, cap := q.cap }, some bf)

/-- Default of the `max_packet_size` config field
(`default_max_packet_size` in `src/bin/src/config.rs`). -/
def default_max_packet_size : Nat := 1024

/-- The size limit `handle_connection` actually enforces
(`src/bin/src/server.rs` line 114): a configured value below the minimum
packet size of 128 is replaced by 128. -/
def effectiveMaxPacketSize (maxPacketSize : Nat) : Nat :=
  if maxPacketSize < 128 then 128 else maxPacketSize

/-- One iteration of the `handle_connection` read loop
(`src/bin/src/server.rs` lines 116-167) on a received frame, given the
already-floored packet-size limit.  Returns the new queue state, the frame
sent back to the peer (if any), and whether the handler keeps reading
(`false` models `break`):

* a frame larger than the limit logs and breaks (the connection is closed);
* a frame that fails to decode logs and continues, touching nothing;
* a decoded action goes through `enqueueStep`. -/
def handleFrame (maxP : Nat) (reserveOk : Bool) (q : QueueState) (bytes : List Nat) :
    Except ActionError (QueueState × Option (List Nat) × Bool) :=
  if bytes.length > maxP then .ok (q, none, false)
  else
    match decodeAction bytes with
    | .error _ => .ok (q, none, true)
    | .ok a =>
      match enqueueStep q a reserveOk with
      | .error e => .error e
      | .ok (q2, reply) => .ok (q2, reply, true)

/-- The `handle_connection` read loop over a sequence of received frames:
frames are handled in order until the handler breaks or errors.  Returns the
final queue state, the frames sent back to the peer in order, and whether
the handler is still reading. -/
def runFrames (maxP : Nat) (reserveOk : Bool) :
    List (List Nat) → QueueState → Except ActionError (QueueState × List (List Nat) × Bool)
  | [], q => .ok (q, [], true)
  | bytes :: rest, q =>
    match handleFrame maxP reserveOk q bytes with
    | .error e => .error e
    | .ok (q2, reply, false) => .ok (q2, reply.toList, false)
    | .ok (q2, reply, true) =>
      match runFrames maxP reserveOk rest q2 with
      | .error e => .error e
      | .ok (q3, replies, open_) => .ok (q3, reply.toList ++ replies, open_)

/-! ### Client agent (`src/src/lib.rs`) -/

/-- `RETRY_CONNECT_LIMIT` (`src/src/lib.rs` line 28). -/
def RETRY_CONNECT_LIMIT : Nat := 15

/-- `RETRY_CONNECT_INTERVAL_SECS` (`src/src/lib.rs` line 31). -/
def RETRY_CONNECT_INTERVAL_SECS : Nat := 3

/-- `RETRY_RESERVE_BATCH_SIZE` (`src/src/lib.rs` line 36). -/
def RETRY_RESERVE_BATCH_SIZE : Nat := 10

/-- `backoff_generator` (`src/src/lib.rs` lines 282-289): the waits, in
seconds, before the successive reconnect attempts — `3 * i` for
`i` in `0..15`. -/
def backoff_generator : List Nat :=
  (List.range RETRY_CONNECT_LIMIT).map (fun i => RETRY_CONNECT_INTERVAL_SECS * i)

/-- The error kinds of `HarpError` (`src/src/error.rs`) needed here; the
payload-carrying variants are elided. -/
inductive HarpError where
  | connectionFailed
  | queueFull
deriving DecidableEq, Repr

/-- Modelled from the spec: the reconnect loop of the reconnecting connector
(the `stubborn-io` crate, external to this repository).  Attempt `i` waits
`backoff_generator[i]` seconds; the first successful attempt ends the loop,
and when the 15-entry generator is exhausted the connector fails with
`ConnectionFailed`.  `succeeds i` says whether attempt `i` succeeds; the
result is the index of the successful attempt. -/
def reconnectOutcome (succeeds : Nat → Bool) : Except HarpError Nat :=
  match (List.range backoff_generator.length).find? succeeds with
  | some i => .ok i
  | none => .error .connectionFailed

/-- The model of `std::net::IpAddr` reached by `create_addr`: the claims are
settled on IPv4 addresses, so the V6 arm is out of the model's scope. -/
inductive IpAddr where
  | v4 (a b c d : Nat)
deriving DecidableEq, Repr

/-- Textual parse of an `IpAddr` (`str::parse::<IpAddr>`): the dotted-decimal
IPv4 grammar; any other text fails. -/
def ipAddrParse (s : List Nat) : Option IpAddr :=
  match ipv4AddrParse s with
  | some (a, b, c, d) => some (.v4 a b c d)
  | none => none

/-- `Harp::create_addr` (`src/src/lib.rs` lines 225-231): an absent host
defaults to `"127.0.0.1"`, a host that fails to parse as an IP address falls
back to `127.0.0.1`, and an absent port defaults to 7777. -/
def create_addr (host : Option (List Nat)) (port : Option Nat) : IpAddr × Nat :=
  let host := (ipAddrParse (host.getD (natToDec 127 ++ [46] ++ natToDec 0 ++ [46]
    ++ natToDec 0 ++ [46] ++ natToDec 1))).getD (.v4 127 0 0 1)
  let port := port.getD 7777
  (host, port)

/-- `Vec::drain(..k)`: removes the first `k` elements, but panics when `k`
exceeds the length.  `none` models the panic. -/
def vecDrainTo (k : Nat) (v : List α) : Option (List α × List α) :=
  if k ≤ v.length then some (v.take k, v.drop k) else none

/-- The retry-tick arm of `Harp::run` (`src/src/lib.rs` lines 261-276): when
the reserve queue is non-empty, `drain(..RETRY_RESERVE_BATCH_SIZE)` removes
the frames to resend.  Returns the frames drained for resending and the
remaining reserve queue; `none` models the panic of an out-of-bounds
drain. -/
def reserveTick (reserve : List Bufferfish) :
    Option (List Bufferfish × List Bufferfish) :=
  if reserve.isEmpty then some ([], reserve)
  else vecDrainTo RETRY_RESERVE_BATCH_SIZE reserve

/-- The event sources `Harp::run` races in its `select!`: a frame bounced
back by the server, an action from the producer channel (paired with whether
the stream send succeeds), and the 3-second retry tick. -/
inductive ClientEvent where
  | inbound (bytes : List Nat)
  | outboundAction (a : Action) (sendOk : Bool)
  | tick
deriving DecidableEq, Repr

/-- How a run of the client agent ends: `ok` when all events are processed
(with the final reserve queue), `fatal` when `run` returns an error, and
`panicked` when the reserve-queue drain panics.  Each constructor carries
the frames successfully written to the stream from the point of observation
on. -/
inductive RunResult where
  | ok (reserve : List Bufferfish) (sent : List (List Nat))
  | fatal (e : ActionError) (sent : List (List Nat))
  | panicked (sent : List (List Nat))
deriving DecidableEq, Repr

/-- Prepend frames written to the stream to a run's sent list. -/
def RunResult.addSent (xs : List (List Nat)) : RunResult → RunResult
  | .ok r s => .ok r (xs ++ s)
  | .fatal e s => .fatal e (xs ++ s)
  | .panicked s => .panicked (xs ++ s)

/-- The event loop of `Harp::run` (`src/src/lib.rs` lines 242-279) over a
sequence of events, starting from a reserve queue:

* an inbound frame is pushed onto the reserve queue undecoded;
* an action from the producer channel is encoded — an encode error
  propagates out of `run` via `?` and ends the loop — and sent; a send
  error is logged and the record dropped for that iteration;
* a retry tick with a non-empty reserve queue drains
  `..RETRY_RESERVE_BATCH_SIZE` frames and resends them (the drain panics
  when the queue holds fewer). -/
def runClient : List ClientEvent → List Bufferfish → RunResult
  | [], reserve => .ok reserve []
  | ev :: rest, reserve =>
    match ev with
    | .inbound b => runClient rest (reserve ++ [b])
    | .outboundAction a sendOk =>
      match encodeAction a with
      | .error e => .fatal e []
      | .ok bf => (runClient rest reserve).addSent (if sendOk then [bf] else [])
    | .tick =>
      match reserveTick reserve with
      | none => .panicked []
      | some (toSend, reserve2) => (runClient rest reserve2).addSent toSend

/-! ### Concrete inputs used to settle the claims -/

instance [DecidableEq ε] [DecidableEq α] : DecidableEq (Except ε α) := fun x y =>
  match x, y with
  | .ok a, .ok b =>
    if h : a = b then .isTrue (by rw [h]) else .isFalse (by intro hc; cases hc; exact h rfl)
  | .error a, .error b =>
    if h : a = b then .isTrue (by rw [h]) else .isFalse (by intro hc; cases hc; exact h rfl)
  | .ok _, .error _ => .isFalse (by intro hc; cases hc)
  | .error _, .ok _ => .isFalse (by intro hc; cases hc)

/-- A record created at 13:01:12.5 UTC (two-digit hour). -/
def middayRecord : Action :=
  ⟨1, ⟨127, 0, 0, 1, 32⟩, [112, 106], none,
    ⟨2023, 2, 24, 13, 1, 12, 500000000, ⟨false, 0, 0, 0⟩⟩⟩

/-- A record created at 05:01:12.5 UTC (single-digit hour); its string fields
are a handful of bytes, far below the 65535-byte codec bound. -/
def earlyHourRecord : Action :=
  ⟨1, ⟨127, 0, 0, 1, 32⟩, [112, 106], none,
    ⟨2023, 2, 24, 5, 1, 12, 500000000, ⟨false, 0, 0, 0⟩⟩⟩

/-- A record whose address is the all-zero host network. -/
def zeroAddrRecord : Action :=
  ⟨1, ⟨0, 0, 0, 0, 32⟩, [112, 106], none,
    ⟨2023, 2, 24, 13, 1, 12, 500000000, ⟨false, 0, 0, 0⟩⟩⟩

/-- A record whose kind text is 65536 bytes long, one byte past the codec's
u16 length-prefix bound, so that encoding it fails. -/
def oversizeKindRecord : Action :=
  ⟨3, ⟨127, 0, 0, 1, 32⟩, List.replicate 65536 107, none,
    ⟨2023, 2, 24, 13, 1, 12, 500000000, ⟨false, 0, 0, 0⟩⟩⟩

/-- A length-prefixed wire string (for building concrete frames by hand). -/
def wireStr (s : List Nat) : List Nat := u16be s.length ++ s

/-- A hand-built frame whose address text is `"0.0.0.0"` — accepted by the
`IpNetwork` parser (the prefix defaults to `/32`) but not the canonical
rendering, which is `"0.0.0.0/32"`. -/
def nonCanonicalFrame : List Nat :=
  u32be 1 ++ wireStr [48, 46, 48, 46, 48, 46, 48] ++ wireStr [112, 106]
    ++ wireStr [] ++ wireStr (odtDisplay middayRecord.created)

/-- The encoding of `middayRecord` (a frame in canonical form). -/
def middayFrame : List Nat := (encodeAction middayRecord).toOption.getD []

/-- The bytes of `"not-an-ip"`. -/
def notAnIpText : List Nat := [110, 111, 116, 45, 97, 110, 45, 105, 112]

/-- The bytes of `"255.255.255.255"`. -/
def bcastText : List Nat :=
  [50, 53, 53, 46, 50, 53, 53, 46, 50, 53, 53, 46, 50, 53, 53]

/-! ## Claims -/

/-- Claim C1: the spec says every decoded record is either appended to the
shared queue or bounced back to the peer, and in particular that when
`push_within_capacity` fails and the 100-slot `try_reserve` succeeds the
record is still appended.  The code violates this: with the queue at
capacity (here one record, capacity 1) and the allocator granting the
reservation, `enqueueStep` grows the capacity but leaves the queue's records
unchanged and sends nothing back — the decoded record is silently
discarded. -/
theorem c1_queue_grow_drops_record :
    enqueueStep ⟨[middayRecord], 1⟩ earlyHourRecord true
        = .ok (⟨[middayRecord], 101⟩, none)
      ∧ earlyHourRecord ≠ middayRecord :=
  ⟨rfl, by decide⟩

/-- Claim C2: the spec says a retry tick removes `min(n, 10)` frames from a
non-empty reserve queue of length `n`, in bounds for every `n ≥ 1`.  The
code instead calls `drain(..10)` unconditionally, which panics whenever the
reserve queue holds fewer than 10 frames: on a reserve queue holding a
single frame both the tick step and the whole event loop panic. -/
theorem c2_reserve_drain_panics :
    reserveTick [[0]] = none
      ∧ runClient [ClientEvent.tick] [[0]] = RunResult.panicked [] :=
  ⟨rfl, rfl⟩

/-- Claim C3: the spec says `decode (encode r) = r` whenever the kind,
address and detail texts are at most 65535 bytes.  The code violates this
for any record created at a single-digit hour: `encode` renders `created`
with the `time` crate's `Display`, which does not pad the hour
(`"2023-02-24 5:01:12.5 +00:00:00"`), while `decode`'s format description
demands exactly two hour digits — so decoding the encoding of
`earlyHourRecord` (whose string fields are all far below the 65535-byte
bound) fails with the timestamp parse error instead of returning the
record. -/
theorem c3_roundtrip_fails_single_digit_hour :
    (ipNetworkDisplay earlyHourRecord.addr).length ≤ 65535
      ∧ earlyHourRecord.kind.length ≤ 65535
      ∧ (detailBytes earlyHourRecord.detail).length ≤ 65535
      ∧ (encodeAction earlyHourRecord).bind decodeAction
          = .error (ActionError.parse "time::OffsetDateTime") :=
  ⟨by decide, by decide, by decide, rfl⟩

/-- Claim C4: a single flush drains exactly `min(n, 13107)` records from the
head of the queue (`13107 = 65535 / 5`), binds them in FIFO order (the
drained list is the queue's prefix, and with the remainder reassembles the
queue), leaves the remaining `n - 13107` records in FIFO order, and never
exceeds the Postgres bind-parameter cap at 5 parameters per record. -/
theorem c4_flush_drains_min_limit (queue : List Action) :
    LIMIT = 13107
      ∧ process_queue_drain queue = (queue.take LIMIT, queue.drop LIMIT)
      ∧ (process_queue_drain queue).1.length = min queue.length LIMIT
      ∧ (process_queue_drain queue).1 ++ (process_queue_drain queue).2 = queue
      ∧ (process_queue_drain queue).2.length = queue.length - LIMIT
      ∧ 5 * (process_queue_drain queue).1.length ≤ POSTGRES_BIND_LIMIT := by
  have hmain : process_queue_drain queue = (queue.take LIMIT, queue.drop LIMIT) := by
    unfold process_queue_drain
    split
    · next hemp =>
      rw [List.isEmpty_iff] at hemp
      subst hemp
      rfl
    · split
      · rfl
      · next hlen =>
        have hle : queue.length ≤ LIMIT := by omega
        rw [List.take_of_length_le hle, List.drop_eq_nil_of_le hle]
  have hlen1 : (queue.take LIMIT).length = min LIMIT queue.length := List.length_take ..
  have hmin : min LIMIT queue.length ≤ LIMIT := Nat.min_le_left ..
  refine ⟨rfl, hmain, ?_, ?_, ?_, ?_⟩
  · rw [hmain]
    simp [hlen1, Nat.min_comm]
  · rw [hmain]
    exact List.take_append_drop ..
  · rw [hmain]
    exact List.length_drop ..
  · rw [hmain]
    simp only [hlen1]
    have : LIMIT = 13107 := rfl
    unfold POSTGRES_BIND_LIMIT
    omega

/-- Claim C7: the backoff schedule of the reconnecting connector is exactly
15 waits, the i-th being `3 * i` seconds, and a connector whose attempts all
fail exhausts the schedule and fails with `ConnectionFailed` (the reconnect
loop itself lives in the external stubborn-io crate and is modelled from
the spec). -/
theorem c7_backoff_schedule :
    backoff_generator.length = 15
      ∧ (∀ i (h : i < backoff_generator.length), backoff_generator.get ⟨i, h⟩ = 3 * i)
      ∧ reconnectOutcome (fun _ => false) = .error HarpError.connectionFailed := by
  refine ⟨rfl, ?_, rfl⟩
  intro i h
  simp [backoff_generator, RETRY_CONNECT_INTERVAL_SECS, List.get_eq_getElem]

/-- Witness for claim C7: the 15th wait (index 14) is 42 seconds. -/
theorem c7_witness : backoff_generator.get ⟨14, by decide⟩ = 3 * 14 :=
  c7_backoff_schedule.2.1 14 (by decide)

/-- Claim C10: `create_addr` is total and applies the defaults:
no host and no port give `127.0.0.1:7777`; a host that fails to parse as an
IP address falls back to `127.0.0.1` (with the port defaulting to 7777 when
absent); and a parseable host with an explicit port is used verbatim. -/
theorem c10_create_addr_defaults :
    create_addr none none = (IpAddr.v4 127 0 0 1, 7777)
      ∧ (∀ h p, ipAddrParse h = none →
          create_addr (some h) p = (IpAddr.v4 127 0 0 1, p.getD 7777))
      ∧ (∀ h p ip, ipAddrParse h = some ip →
          create_addr (some h) (some p) = (ip, p)) := by
  refine ⟨rfl, ?_, ?_⟩
  · intro h p hp
    simp [create_addr, hp]
  · intro h p ip hp
    simp [create_addr, hp]

/-- Witness for claim C10: `"not-an-ip"` falls back to `127.0.0.1:7777` and
`"255.255.255.255"` with port 7000 is used verbatim. -/
theorem c10_witness :
    ipAddrParse notAnIpText = none
      ∧ create_addr (some notAnIpText) none = (IpAddr.v4 127 0 0 1, 7777)
      ∧ ipAddrParse bcastText = some (IpAddr.v4 255 255 255 255)
      ∧ create_addr (some bcastText) (some 7000) = (IpAddr.v4 255 255 255 255, 7000) := by
  have h1 : ipAddrParse notAnIpText = none := by decide
  have h2 : ipAddrParse bcastText = some (IpAddr.v4 255 255 255 255) := by decide
  exact ⟨h1, c10_create_addr_defaults.2.1 notAnIpText none h1, h2,
    c10_create_addr_defaults.2.2 bcastText 7000 _ h2⟩

/-- Claim C6 counterexample: the claim's final clause — a following valid
frame on the same connection is decoded and enqueued — is unconditional,
but it fails when the queue is at capacity.  Here a bad frame (the empty
frame) is skipped, and the following valid frame decodes to
`middayRecord`; yet with the queue at capacity (one record, capacity 1)
and the allocator granting `try_reserve(100)`, the handler neither
enqueues nor bounces the record: the queue still holds only
`earlyHourRecord` afterwards, nothing is sent back, and the connection
stays open. -/
theorem c6_counterexample_full_queue :
    decodeAction [] = .error ActionError.bufferRead
      ∧ decodeAction middayFrame = .ok middayRecord
      ∧ runFrames (effectiveMaxPacketSize default_max_packet_size) true
          [[], middayFrame] ⟨[earlyHourRecord], 1⟩
          = .ok (⟨[earlyHourRecord], 101⟩, [], true)
      ∧ middayRecord ≠ earlyHourRecord := by
  refine ⟨rfl, by decide, by decide, by decide⟩

/-- Claim C6 (amended): a frame that fails to decode is logged and skipped
by the config-driven server handler — it touches neither the queue nor the
connection — and a following valid frame on the same connection is decoded
and, provided the queue is below capacity (the handler's non-allocating
append path), enqueued. -/
theorem c6_decode_error_nonfatal (mp : Nat) (reserveOk : Bool) (q : QueueState)
    (bad good : List Nat) (e : ActionError) (a : Action)
    (hbadlen : bad.length ≤ effectiveMaxPacketSize mp)
    (hbad : decodeAction bad = .error e)
    (hgoodlen : good.length ≤ effectiveMaxPacketSize mp)
    (hgood : decodeAction good = .ok a)
    (hcap : q.items.length < q.cap) :
    handleFrame (effectiveMaxPacketSize mp) reserveOk q bad = .ok (q, none, true)
      ∧ runFrames (effectiveMaxPacketSize mp) reserveOk [bad, good] q
          = .ok (⟨q.items ++ [a], q.cap⟩, [], true) := by
  have h1 : handleFrame (effectiveMaxPacketSize mp) reserveOk q bad = .ok (q, none, true) := by
    unfold handleFrame
    rw [if_neg (by omega), hbad]
  have h2 : handleFrame (effectiveMaxPacketSize mp) reserveOk q good
      = .ok (⟨q.items ++ [a], q.cap⟩, none, true) := by
    unfold handleFrame
    rw [if_neg (by omega), hgood]
    simp [enqueueStep, hcap]
  refine ⟨h1, ?_⟩
  simp [runFrames, h1, h2]

/-- Witness for claim C6: the empty frame fails to decode with a buffer
read error, the encoding of `middayRecord` decodes back to it, and on a
fresh queue (capacity hint 100) the handler skips the bad frame and
enqueues the record of the valid one, keeping the connection open. -/
theorem c6_witness :
    decodeAction [] = .error ActionError.bufferRead
      ∧ decodeAction middayFrame = .ok middayRecord
      ∧ runFrames (effectiveMaxPacketSize default_max_packet_size) false
          [[], middayFrame] ⟨[], 100⟩ = .ok (⟨[middayRecord], 100⟩, [], true) := by
  have hbad : decodeAction [] = .error ActionError.bufferRead := rfl
  have hgood : decodeAction middayFrame = .ok middayRecord := by decide
  have hserver := c6_decode_error_nonfatal default_max_packet_size false ⟨[], 100⟩
    [] middayFrame ActionError.bufferRead middayRecord (by decide) hbad (by decide)
    hgood (by decide)
  exact ⟨hbad, hgood, hserver.2⟩

/-- Claim C8: a frame whose payload exceeds the effective maximum packet
size makes the handler stop reading (the connection is dropped) without
enqueuing anything, sending anything, or touching the queue; the effective
maximum is the configured value floored at 128, and the configured default
is 1024. -/
theorem c8_oversize_frame_closes (mp : Nat) (reserveOk : Bool) (q : QueueState)
    (bytes : List Nat) (hover : bytes.length > effectiveMaxPacketSize mp) :
    handleFrame (effectiveMaxPacketSize mp) reserveOk q bytes = .ok (q, none, false)
      ∧ 128 ≤ effectiveMaxPacketSize mp
      ∧ (128 ≤ mp → effectiveMaxPacketSize mp = mp)
      ∧ effectiveMaxPacketSize default_max_packet_size = 1024 := by
  refine ⟨?_, ?_, ?_, rfl⟩
  · unfold handleFrame
    rw [if_pos hover]
  · unfold effectiveMaxPacketSize
    split <;> omega
  · intro h
    unfold effectiveMaxPacketSize
    rw [if_neg (by omega)]

/-- Witness for claim C8: a 2048-byte frame against the default 1024-byte
limit closes the connection and leaves the fresh queue untouched. -/
theorem c8_witness :
    (List.replicate 2048 0).length > effectiveMaxPacketSize default_max_packet_size
      ∧ handleFrame (effectiveMaxPacketSize default_max_packet_size) false ⟨[], 100⟩
          (List.replicate 2048 0) = .ok (⟨[], 100⟩, none, false) := by
  have h : (List.replicate 2048 0).length > effectiveMaxPacketSize default_max_packet_size := by
    rw [List.length_replicate]
    decide
  exact ⟨h, (c8_oversize_frame_closes default_max_packet_size false ⟨[], 100⟩
    (List.replicate 2048 0) h).1⟩

/-- Helper for the C9 witness: encoding fails with a buffer error as soon as
the kind text is longer than 65535 bytes (the address text being within
bounds). -/
theorem encode_kind_too_long (a : Action)
    (h1 : ¬ (ipNetworkDisplay a.addr).length > 65535)
    (h2 : a.kind.length > 65535) :
    encodeAction a = .error .bufferRead := by
  have e1 : writeString (ipNetworkDisplay a.addr)
      = some (u16be (ipNetworkDisplay a.addr).length ++ ipNetworkDisplay a.addr) := by
    unfold writeString
    rw [if_neg h1]
  have e2 : writeString a.kind = none := by
    unfold writeString
    rw [if_pos h2]
  unfold encodeAction
  rw [e1, e2]

/-- Claim C9: when encoding an outbound record fails, `run` returns that
error and the agent terminates — nothing queued or sent afterwards is ever
transmitted (the sent list from that point on is empty) — whereas a
stream-level send failure with a successfully encoded record is merely
dropped: the loop continues exactly as if the event had not occurred. -/
theorem c9_encode_error_fatal (a : Action) (e : ActionError) (sendOk : Bool)
    (rest : List ClientEvent) (reserve : List Bufferfish)
    (henc : encodeAction a = .error e) :
    runClient (ClientEvent.outboundAction a sendOk :: rest) reserve = .fatal e []
      ∧ (∀ a2 bf, encodeAction a2 = .ok bf →
          runClient (ClientEvent.outboundAction a2 false :: rest) reserve
            = runClient rest reserve) := by
  constructor
  · simp [runClient, henc]
  · intro a2 bf h2
    simp only [runClient, h2, if_neg]
    cases runClient rest reserve <;> simp [RunResult.addSent]

/-- Witness for claim C9: a record with a 65536-byte kind fails to encode,
and the agent run over just that event ends fatally with the encode error
and transmits nothing. -/
theorem c9_witness :
    encodeAction oversizeKindRecord = .error ActionError.bufferRead
      ∧ runClient [ClientEvent.outboundAction oversizeKindRecord true] []
          = .fatal ActionError.bufferRead [] := by
  have hklen : (oversizeKindRecord.kind).length = 65536 := by
    rw [show oversizeKindRecord.kind = List.replicate 65536 107 from rfl,
      List.length_replicate]
  have henc : encodeAction oversizeKindRecord = .error ActionError.bufferRead :=
    encode_kind_too_long oversizeKindRecord (by decide) (by omega)
  exact ⟨henc, (c9_encode_error_fatal oversizeKindRecord ActionError.bufferRead true
    [] [] henc).1⟩

/-- Claim C5 counterexample: the decoder accepts byte sequences that are not
in the encoder's image, so re-encoding is not always byte-identical.
`nonCanonicalFrame` carries the address text `"0.0.0.0"` — accepted by the
`IpNetwork` parser with an implicit `/32` — and decodes successfully, but
re-encoding the decoded record renders the address canonically as
`"0.0.0.0/32"`, so the result differs from the original bytes. -/
theorem c5_counterexample_noncanonical_addr :
    decodeAction nonCanonicalFrame = .ok zeroAddrRecord
      ∧ encodeAction zeroAddrRecord ≠ .ok nonCanonicalFrame := by
  decide

/-- Bytes below 256 are reassembled exactly by the 2-byte big-endian
encoding. -/
theorem u16be_of_bytes {b0 b1 : Nat} (h0 : b0 < 256) (h1 : b1 < 256) :
    u16be (b0 * 256 + b1) = [b0, b1] := by
  unfold u16be
  have e1 : (b0 * 256 + b1) / 256 % 256 = b0 := by omega
  have e2 : (b0 * 256 + b1) % 256 = b1 := by omega
  rw [e1, e2]

/-- Bytes below 256 are reassembled exactly by the 4-byte big-endian
encoding. -/
theorem u32be_of_bytes {b0 b1 b2 b3 : Nat}
    (h0 : b0 < 256) (h1 : b1 < 256) (h2 : b2 < 256) (h3 : b3 < 256) :
    u32be (b0 * 16777216 + b1 * 65536 + b2 * 256 + b3) = [b0, b1, b2, b3] := by
  unfold u32be
  have e1 : (b0 * 16777216 + b1 * 65536 + b2 * 256 + b3) / 16777216 % 256 = b0 := by omega
  have e2 : (b0 * 16777216 + b1 * 65536 + b2 * 256 + b3) / 65536 % 256 = b1 := by omega
  have e3 : (b0 * 16777216 + b1 * 65536 + b2 * 256 + b3) / 256 % 256 = b2 := by omega
  have e4 : (b0 * 16777216 + b1 * 65536 + b2 * 256 + b3) % 256 = b3 := by omega
  rw [e1, e2, e3, e4]

/-- A successful u32 read splits the buffer as its own 4-byte big-endian
re-encoding followed by the rest. -/
theorem readU32_reconstruct {b : List Nat} {v : Nat} {rest : List Nat}
    (hval : ∀ x ∈ b, x < 256) (h : readU32 b = some (v, rest)) :
    b = u32be v ++ rest ∧ v < 4294967296 ∧ (∀ x ∈ rest, x < 256) := by
  match b with
  | [] => simp [readU32] at h
  | [b0] => simp [readU32] at h
  | [b0, b1] => simp [readU32] at h
  | [b0, b1, b2] => simp [readU32] at h
  | b0 :: b1 :: b2 :: b3 :: r =>
    simp only [readU32, Option.some.injEq, Prod.mk.injEq] at h
    obtain ⟨hv, hr⟩ := h
    have h0 : b0 < 256 := hval b0 (by simp)
    have h1 : b1 < 256 := hval b1 (by simp)
    have h2 : b2 < 256 := hval b2 (by simp)
    have h3 : b3 < 256 := hval b3 (by simp)
    subst hv
    subst hr
    refine ⟨?_, by omega, ?_⟩
    · rw [u32be_of_bytes h0 h1 h2 h3]
      rfl
    · intro x hx
      exact hval x (by simp [hx])

/-- A successful length-prefixed string read splits the buffer as the
string's own length-prefixed re-encoding followed by the rest, with the
string short enough to re-encode. -/
theorem readString_reconstruct {s v rest : List Nat}
    (hval : ∀ x ∈ s, x < 256) (h : readString s = some (v, rest)) :
    s = u16be v.length ++ v ++ rest ∧ v.length ≤ 65535
      ∧ (∀ x ∈ v, x < 256) ∧ (∀ x ∈ rest, x < 256) := by
  match s with
  | [] => simp [readString, readU16] at h
  | [b0] => simp [readString, readU16] at h
  | b0 :: b1 :: r =>
    simp only [readString, readU16] at h
    by_cases hle : b0 * 256 + b1 ≤ r.length
    · rw [if_pos hle] at h
      simp only [Option.some.injEq, Prod.mk.injEq] at h
      obtain ⟨hv, hr⟩ := h
      have h0 : b0 < 256 := hval b0 (by simp)
      have h1 : b1 < 256 := hval b1 (by simp)
      have hvlen : v.length = b0 * 256 + b1 := by
        rw [← hv, List.length_take]
        omega
      refine ⟨?_, by omega, ?_, ?_⟩
      · rw [hvlen, u16be_of_bytes h0 h1, ← hv, ← hr]
        simp [List.take_append_drop]
      · intro x hx
        rw [← hv] at hx
        exact hval x (by simp [List.take_subset _ _ hx])
      · intro x hx
        rw [← hr] at hx
        exact hval x (by simp [List.drop_subset _ _ hx])
    · rw [if_neg hle] at h
      simp at h

/-- Claim C5 (amended): for every byte sequence that decodes successfully
into a record *and is in canonical form* — the wire fields are exactly the
id and the canonical renderings of the record's address, kind, detail and
created fields, with no trailing bytes — re-encoding the decoded record
reproduces the byte sequence exactly.  (The counterexample forces the
canonicality and no-trailing-bytes conditions; frames the client encoder
produced satisfy them, so a bounced record reaches the reserve queue
byte-identically whenever it decodes at all.) -/
theorem c5_amended_reencode_canonical (b : List Nat) (r : Action)
    (hval : ∀ x ∈ b, x < 256)
    (_hdec : decodeAction b = .ok r)
    (hwire : decodeWire b = some (r.id, ipNetworkDisplay r.addr, r.kind,
        detailBytes r.detail, odtDisplay r.created, [])) :
    encodeAction r = .ok b := by
  -- the decode hypothesis states the claim's premise; the proof runs on the
  -- wire decomposition alone
  simp only [decodeWire] at hwire
  cases h0 : readU32 b with
  | none => rw [h0] at hwire; simp at hwire
  | some p0 =>
  obtain ⟨id0, r1⟩ := p0
  rw [h0] at hwire
  simp only at hwire
  cases h1 : readString r1 with
  | none => rw [h1] at hwire; simp at hwire
  | some p1 =>
  obtain ⟨s1, r2⟩ := p1
  rw [h1] at hwire
  simp only at hwire
  cases h2 : readString r2 with
  | none => rw [h2] at hwire; simp at hwire
  | some p2 =>
  obtain ⟨s2, r3⟩ := p2
  rw [h2] at hwire
  simp only at hwire
  cases h3 : readString r3 with
  | none => rw [h3] at hwire; simp at hwire
  | some p3 =>
  obtain ⟨s3, r4⟩ := p3
  rw [h3] at hwire
  simp only at hwire
  cases h4 : readString r4 with
  | none => rw [h4] at hwire; simp at hwire
  | some p4 =>
  obtain ⟨s4, r5⟩ := p4
  rw [h4] at hwire
  simp only [Option.some.injEq, Prod.mk.injEq] at hwire
  obtain ⟨hid, ha, hk, hd, hc, hr5⟩ := hwire
  subst hid
  subst ha
  subst hk
  subst hd
  subst hc
  subst hr5
  obtain ⟨hb, hidlt, hval1⟩ := readU32_reconstruct hval h0
  obtain ⟨hr1, hl1, hvs1, hval2⟩ := readString_reconstruct hval1 h1
  obtain ⟨hr2, hl2, hvs2, hval3⟩ := readString_reconstruct hval2 h2
  obtain ⟨hr3, hl3, hvs3, hval4⟩ := readString_reconstruct hval3 h3
  obtain ⟨hr4, hl4, hvs4, hval5⟩ := readString_reconstruct hval4 h4
  have e1 : writeString (ipNetworkDisplay r.addr)
      = some (u16be (ipNetworkDisplay r.addr).length ++ ipNetworkDisplay r.addr) := by
    unfold writeString
    rw [if_neg (by omega)]
  have e2 : writeString r.kind = some (u16be r.kind.length ++ r.kind) := by
    unfold writeString
    rw [if_neg (by omega)]
  have e3 : writeString (detailBytes r.detail)
      = some (u16be (detailBytes r.detail).length ++ detailBytes r.detail) := by
    unfold writeString
    rw [if_neg (by omega)]
  have e4 : writeString (odtDisplay r.created)
      = some (u16be (odtDisplay r.created).length ++ odtDisplay r.created) := by
    unfold writeString
    rw [if_neg (by omega)]
  unfold encodeAction
  rw [e1, e2, e3, e4, hb, hr1, hr2, hr3, hr4]
  simp [List.append_assoc]

/-- Witness for claim C5 (amended): the encoding of `middayRecord` decodes
back to it, its wire fields are the canonical renderings with no trailing
bytes, and re-encoding reproduces the frame byte-for-byte. -/
theorem c5_amended_witness :
    decodeAction middayFrame = .ok middayRecord
      ∧ decodeWire middayFrame = some (middayRecord.id,
          ipNetworkDisplay middayRecord.addr, middayRecord.kind,
          detailBytes middayRecord.detail, odtDisplay middayRecord.created, [])
      ∧ encodeAction middayRecord = .ok middayFrame := by
  have h1 : ∀ x ∈ middayFrame, x < 256 := by decide
  have h2 : decodeAction middayFrame = .ok middayRecord := by decide
  have h3 : decodeWire middayFrame = some (middayRecord.id,
      ipNetworkDisplay middayRecord.addr, middayRecord.kind,
      detailBytes middayRecord.detail, odtDisplay middayRecord.created, []) := by rfl
  exact ⟨h2, h3, c5_amended_reencode_canonical middayFrame middayRecord h1 h2 h3⟩

end Harp
